import Mathlib

/-!
Verification of the bouncer authorization library (token lifecycle and
rule evaluation), shallowly embedded from `src/index.ts`.

External collaborators (Node crypto, the base64 codec, JSON, the random
UUID generator, and the injected `TokenStore`) are modelled as abstract
function parameters gathered in `CryptoEnv` and `TokenStore`; the code of
the repository itself (the `Bouncer` and `Ruleset` methods) is translated
definition by definition. Exceptions raised by collaborators are modelled
with `Except JsError`. Time (`Date.now()`) is an explicit `now : Int`
parameter in epoch milliseconds, and a JS `Date` argument is identified
with its `getTime()` value.
-/

/-- Model of the TS union type `string | number` used for `userId`. -/
inductive UserId where
  | str : String → UserId
  | num : Int → UserId
deriving DecidableEq

/-- Embeds the `Token` interface of the source. -/
structure Token where
  sessionId : String
  userId : UserId
  expirationTime : Int
deriving DecidableEq

/-- Errors the embedded code can raise: `invalidArgType` models the
Node `ERR_INVALID_ARG_TYPE` TypeError, `syntaxError` models the
SyntaxError that `JSON.parse` throws on malformed input. -/
inductive JsError where
  | invalidArgType
  | syntaxError
deriving DecidableEq

/-- Embeds the `TokenStore` interface: an external collaborator with two
methods, modelled as pure functions giving the result of one call. -/
structure TokenStore where
  addToDenyList : String → Int → Bool
  isOnDenyList : String → Bool

/-- Abstract model of the external collaborators used by `Bouncer`:
the Node crypto sign/verify pair for the key pair held by the instance,
the base64 codec, JSON serialization, and `crypto.randomUUID`. `verify`
is total on string signatures (Node returns `false` rather than throwing
for any string signature that does not match); `jsonParse` may fail. -/
structure CryptoEnv where
  sign : String → String
  verify : String → String → Bool
  b64encode : String → String
  b64decode : String → String
  jsonStringify : Token → String
  jsonParse : String → Except JsError Token
  randomUUID : String

/-- Embeds the `ParsedToken` interface. In the source, `signature` is
`splitToken[1]`, which is `undefined` when the input has no separator, so
it is modelled as an `Option`; `splitToken[0]` always exists because a JS
split returns at least one element. -/
structure ParsedToken where
  token : String
  signature : Option String
deriving DecidableEq

/-- Splits a character list at every occurrence of `sep`, keeping empty
chunks, exactly as `String.prototype.split` does with a one-character
separator string. -/
def splitChar (sep : Char) : List Char → List (List Char)
  | [] => [[]]
  | c :: cs =>
    if c = sep then
      [] :: splitChar sep cs
    else
      match splitChar sep cs with
      | [] => [[c]]
      | h :: t => (c :: h) :: t

/-- Model of the JS expression `s.split(sep)` for a one-character
separator, as used by `parseToken` with separator `"."`. -/
def jsSplit (sep : Char) (s : String) : List String :=
  (splitChar sep s.toList).map List.asString

/-- Embeds `Bouncer.parseToken`: split on `"."`, take element 0 as the
payload and element 1 (possibly `undefined`) as the signature. -/
def parseToken (encodedToken : String) : ParsedToken :=
  match jsSplit '.' encodedToken with
  | [] => { token := "", signature := none }
  | t :: rest => { token := t, signature := rest.head? }

/-- Embeds `Bouncer.verifyToken`. The source forwards the signature to
the Node `Verify.verify` call with base64 encoding; per the documented
Node crypto API contract (external collaborator), that call throws
`ERR_INVALID_ARG_TYPE` when the signature argument is `undefined` rather
than a string, and returns a boolean for every string signature. -/
def verifyToken (env : CryptoEnv) (token : String) (signature : Option String) :
    Except JsError Bool :=
  match signature with
  | none => Except.error JsError.invalidArgType
  | some sig => Except.ok (env.verify token sig)

/-- Embeds `Bouncer.generateSessionId`, a call to `crypto.randomUUID`. -/
def generateSessionId (env : CryptoEnv) : String :=
  env.randomUUID

/-- Embeds `Bouncer.encodeToken`: `Base64.encode(JSON.stringify(token))`. -/
def encodeToken (env : CryptoEnv) (token : Token) : String :=
  env.b64encode (env.jsonStringify token)

/-- Embeds `Bouncer.decodeToken`: `JSON.parse(Base64.decode(encodedToken))`;
the `JSON.parse` step may throw. -/
def decodeToken (env : CryptoEnv) (encodedToken : String) : Except JsError Token :=
  env.jsonParse (env.b64decode encodedToken)

/-- Embeds `Bouncer.signToken`, the Node `Sign.sign` call over the exact
payload string, returning the base64-encoded signature. -/
def signToken (env : CryptoEnv) (encodedToken : String) : String :=
  env.sign encodedToken

/-- Embeds `Bouncer.createToken`. The `expirationTime` argument stands
for `expirationDate.getTime()`. -/
def createToken (env : CryptoEnv) (userId : UserId) (expirationTime : Int) : String :=
  let sessionId := generateSessionId env
  let token : Token := { sessionId := sessionId, userId := userId,
                         expirationTime := expirationTime }
  let encodedToken := encodeToken env token
  let signature := signToken env encodedToken
  encodedToken ++ "." ++ signature

/-- Embeds `Bouncer.revokeToken`: empty input short-circuits to `false`;
otherwise the input is parsed, its payload part decoded (which may
throw), and the decoded sessionId together with the current time is
passed to `TokenStore.addToDenyList`, whose result is returned. -/
def revokeToken (env : CryptoEnv) (store : TokenStore) (now : Int)
    (unparsedToken : String) : Except JsError Bool :=
  if unparsedToken = "" then Except.ok false
  else
    let parsed := parseToken unparsedToken
    match decodeToken env parsed.token with
    | Except.error e => Except.error e
    | Except.ok decodedToken =>
        Except.ok (store.addToDenyList decodedToken.sessionId now)

/-- Embeds `Bouncer.validateToken`: empty input gives `false`; the input
is split; the signature is verified over the payload part; on
verification failure the result is `false`; otherwise the payload is
decoded, the expiration compared with the current time, and finally the
deny list is queried and its negation returned. -/
def validateToken (env : CryptoEnv) (store : TokenStore) (now : Int)
    (unparsedToken : String) : Except JsError Bool :=
  if unparsedToken = "" then Except.ok false
  else
    let parsed := parseToken unparsedToken
    match verifyToken env parsed.token parsed.signature with
    | Except.error e => Except.error e
    | Except.ok verified =>
      if verified = false then Except.ok false
      else
        match decodeToken env parsed.token with
        | Except.error e => Except.error e
        | Except.ok decodedToken =>
          if decodedToken.expirationTime < now then Except.ok false
          else Except.ok (!store.isOnDenyList decodedToken.sessionId)

/-- Observable steps of the `validateToken` pipeline, used to state
which stages run on a given input. -/
inductive VEvent where
  | verifySig
  | decodePayload
  | expiryCheck
  | denyListQuery
deriving DecidableEq

/-- Instrumented copy of `validateToken` that also records, in order,
which pipeline stages were executed. Its first component agrees with
`validateToken` on every input (`validateTokenTrace_fst`). -/
def validateTokenTrace (env : CryptoEnv) (store : TokenStore) (now : Int)
    (unparsedToken : String) : Except JsError Bool × List VEvent :=
  if unparsedToken = "" then (Except.ok false, [])
  else
    let parsed := parseToken unparsedToken
    match verifyToken env parsed.token parsed.signature with
    | Except.error e => (Except.error e, [VEvent.verifySig])
    | Except.ok verified =>
      if verified = false then (Except.ok false, [VEvent.verifySig])
      else
        match decodeToken env parsed.token with
        | Except.error e => (Except.error e, [VEvent.verifySig, VEvent.decodePayload])
        | Except.ok decodedToken =>
          if decodedToken.expirationTime < now then
            (Except.ok false, [VEvent.verifySig, VEvent.decodePayload, VEvent.expiryCheck])
          else
            (Except.ok (!store.isOnDenyList decodedToken.sessionId),
             [VEvent.verifySig, VEvent.decodePayload, VEvent.expiryCheck,
              VEvent.denyListQuery])

/-- Model of `Set.prototype.add` on an insertion-ordered collection
keyed by reference identity: adding an element already present leaves
the collection unchanged, otherwise it is appended. -/
def setAdd {σ : Type} [DecidableEq σ] (s : List σ) (x : σ) : List σ :=
  if x ∈ s then s else s ++ [x]

/-- Model of `new Set(array)`: insert the elements of the array in
order, keeping only the first occurrence of each reference. -/
def setFromList {σ : Type} [DecidableEq σ] (l : List σ) : List σ :=
  l.foldl setAdd []

/-- Embeds the `Ruleset` class state: two insertion-ordered collections
of rule references. Rule references are drawn from arbitrary types with
decidable reference equality; how a reference is applied to a subject is
supplied separately to the evaluation functions. -/
structure Ruleset (σ τ : Type) where
  syncRules : List σ
  asyncRules : List τ

/-- Embeds the `Ruleset` constructor: both optional arrays are poured
into fresh `Set`s. -/
def Ruleset.make {σ τ : Type} [DecidableEq σ] [DecidableEq τ]
    (sync : List σ) (async : List τ) : Ruleset σ τ :=
  { syncRules := setFromList sync, asyncRules := setFromList async }

/-- Embeds `Ruleset.addSyncRule` (which returns `this` for chaining). -/
def Ruleset.addSyncRule {σ τ : Type} [DecidableEq σ]
    (rules : Ruleset σ τ) (rule : σ) : Ruleset σ τ :=
  { rules with syncRules := setAdd rules.syncRules rule }

/-- Embeds `Ruleset.addAsyncRule` (which returns `this` for chaining). -/
def Ruleset.addAsyncRule {σ τ : Type} [DecidableEq τ]
    (rules : Ruleset σ τ) (rule : τ) : Ruleset σ τ :=
  { rules with asyncRules := setAdd rules.asyncRules rule }

/-- Embeds `Ruleset.hasSyncRule`, the identity-based membership test. -/
def Ruleset.hasSyncRule {σ τ : Type} [DecidableEq σ]
    (rules : Ruleset σ τ) (rule : σ) : Bool :=
  decide (rule ∈ rules.syncRules)

/-- Embeds `Ruleset.hasAsyncRule`, the identity-based membership test. -/
def Ruleset.hasAsyncRule {σ τ : Type} [DecidableEq τ]
    (rules : Ruleset σ τ) (rule : τ) : Bool :=
  decide (rule ∈ rules.asyncRules)

/-- Embeds `Ruleset.deleteSyncRule`: the boolean tells whether the rule
was present, and the returned state no longer holds it. -/
def Ruleset.deleteSyncRule {σ τ : Type} [DecidableEq σ]
    (rules : Ruleset σ τ) (rule : σ) : Bool × Ruleset σ τ :=
  (decide (rule ∈ rules.syncRules),
   { rules with syncRules := rules.syncRules.erase rule })

/-- Embeds `Ruleset.deleteAsyncRule`: the boolean tells whether the rule
was present, and the returned state no longer holds it. -/
def Ruleset.deleteAsyncRule {σ τ : Type} [DecidableEq τ]
    (rules : Ruleset σ τ) (rule : τ) : Bool × Ruleset σ τ :=
  (decide (rule ∈ rules.asyncRules),
   { rules with asyncRules := rules.asyncRules.erase rule })

/-- Embeds `Ruleset.clearSyncRules`. -/
def Ruleset.clearSyncRules {σ τ : Type} (rules : Ruleset σ τ) : Ruleset σ τ :=
  { rules with syncRules := [] }

/-- Embeds `Ruleset.clearAsyncRules`. -/
def Ruleset.clearAsyncRules {σ τ : Type} (rules : Ruleset σ τ) : Ruleset σ τ :=
  { rules with asyncRules := [] }

/-- Embeds the shared loop body of `Ruleset.evaluateSync` and
`Ruleset.evaluateAsync`: walk the rules in order, return `false` at the
first rule returning (for the async variant: resolving to) `false`,
return `true` past the last rule. `apply` gives the result of calling a
rule reference on the subject; in the pure model awaiting a promise is
the identity, so both loops have this one shape. -/
def runRules {ρ α : Type} (apply : ρ → α → Bool) : List ρ → α → Bool
  | [], _ => true
  | rule :: rest, userData =>
    if apply rule userData = false then false
    else runRules apply rest userData

/-- Instrumented copy of `runRules` that also returns, in order, the
rules that were actually invoked. Its first component agrees with
`runRules` on every input (`runRulesTrace_fst`). -/
def runRulesTrace {ρ α : Type} (apply : ρ → α → Bool) : List ρ → α → Bool × List ρ
  | [], _ => (true, [])
  | rule :: rest, userData =>
    if apply rule userData = false then (false, [rule])
    else
      let res := runRulesTrace apply rest userData
      (res.1, rule :: res.2)

/-- Embeds `Ruleset.evaluateSync`. -/
def Ruleset.evaluateSync {σ τ α : Type} (rules : Ruleset σ τ)
    (applyS : σ → α → Bool) (userData : α) : Bool :=
  runRules applyS rules.syncRules userData

/-- Embeds `Ruleset.evaluateAsync`; in the pure model the sequentially
awaited promise results are the boolean values the rules resolve to. -/
def Ruleset.evaluateAsync {σ τ α : Type} (rules : Ruleset σ τ)
    (applyA : τ → α → Bool) (userData : α) : Bool :=
  runRules applyA rules.asyncRules userData

/-- Embeds `Bouncer.validateUser`:
`rules.evaluateSync(userData) && (await rules.evaluateAsync(userData))`,
where `&&` is the short-circuiting JS conjunction. -/
def validateUser {σ τ α : Type} (applyS : σ → α → Bool) (applyA : τ → α → Bool)
    (userData : α) (rules : Ruleset σ τ) : Bool :=
  rules.evaluateSync applyS userData && rules.evaluateAsync applyA userData

/-- Instrumented copy of `validateUser` that also returns the async
rules that were actually invoked: the JS `&&` only evaluates its right
operand when the left one is truthy. Its first component agrees with
`validateUser` on every input (`validateUserTrace_fst`). -/
def validateUserTrace {σ τ α : Type} (applyS : σ → α → Bool) (applyA : τ → α → Bool)
    (userData : α) (rules : Ruleset σ τ) : Bool × List τ :=
  if rules.evaluateSync applyS userData = false then (false, [])
  else runRulesTrace applyA rules.asyncRules userData

/-- A JS split never yields an empty array. -/
theorem splitChar_ne_nil (sep : Char) (l : List Char) : splitChar sep l ≠ [] := by
  induction l with
  | nil => simp [splitChar]
  | cons c cs ih =>
    simp only [splitChar]
    split
    · simp
    · split
      · simp
      · simp

/-- Splitting a list free of the separator yields the list itself. -/
theorem splitChar_of_not_mem {sep : Char} {l : List Char} (h : sep ∉ l) :
    splitChar sep l = [l] := by
  induction l with
  | nil => rfl
  | cons c cs ih =>
    have hc : ¬ c = sep := fun e => h (e ▸ List.mem_cons_self c cs)
    have hcs : sep ∉ cs := fun m => h (List.mem_cons_of_mem _ m)
    simp only [splitChar, if_neg hc, ih hcs]

/-- Splitting past a separator-free prefix peels off that prefix as the
first chunk. -/
theorem splitChar_append {sep : Char} {l₁ : List Char} (l₂ : List Char) (h : sep ∉ l₁) :
    splitChar sep (l₁ ++ sep :: l₂) = l₁ :: splitChar sep l₂ := by
  induction l₁ with
  | nil => simp [splitChar]
  | cons c cs ih =>
    have hc : ¬ c = sep := fun e => h (e ▸ List.mem_cons_self c cs)
    have hcs : sep ∉ cs := fun m => h (List.mem_cons_of_mem _ m)
    have ih2 := ih hcs
    simp only [List.cons_append, splitChar, if_neg hc, List.append_eq]
    rw [ih2]

/-- Character list of a two-part dotted string. -/
theorem toList_append_sep (a b : String) :
    (a ++ "." ++ b).toList = a.toList ++ '.' :: b.toList := by
  have hdot : ("." : String).data = ['.'] := rfl
  show (a ++ "." ++ b).data = a.data ++ '.' :: b.data
  simp [String.data_append, hdot]

/-- A dotted concatenation is never the empty string. -/
theorem append_sep_ne_empty (a b : String) : a ++ "." ++ b ≠ "" := by
  intro h
  have hdata := congrArg String.toList h
  rw [toList_append_sep] at hdata
  simp at hdata

/-- Parsing a well-formed two-part token recovers payload and signature. -/
theorem parseToken_wellformed {a b : String}
    (ha : '.' ∉ a.toList) (hb : '.' ∉ b.toList) :
    parseToken (a ++ "." ++ b) = { token := a, signature := some b } := by
  unfold parseToken jsSplit
  rw [toList_append_sep, splitChar_append _ ha, splitChar_of_not_mem hb]
  simp only [List.map_cons, List.map_nil, List.head?]
  exact congrArg₂ ParsedToken.mk rfl rfl

/-- Parsing the empty string yields an empty payload and no signature. -/
theorem parseToken_empty : parseToken "" = { token := "", signature := none } := rfl

/-- The instrumented validator computes the same result as the plain one. -/
theorem validateTokenTrace_fst (env : CryptoEnv) (store : TokenStore) (now : Int)
    (s : String) :
    (validateTokenTrace env store now s).1 = validateToken env store now s := by
  by_cases h : s = ""
  · simp [validateTokenTrace, validateToken, h]
  · simp only [validateTokenTrace, validateToken, if_neg h]
    cases verifyToken env (parseToken s).token (parseToken s).signature with
    | error e => rfl
    | ok verified =>
      cases verified with
      | false => rfl
      | true =>
        cases decodeToken env (parseToken s).token with
        | error e => rfl
        | ok t =>
          by_cases he : t.expirationTime < now
          · simp [he]
          · simp [he]

/-- The result of the validator depends on the input string only through
emptiness and the parsed parts. -/
theorem validateToken_congr (env : CryptoEnv) (store : TokenStore) (now : Int)
    {s₁ s₂ : String} (hp : parseToken s₁ = parseToken s₂)
    (h₁ : s₁ ≠ "") (h₂ : s₂ ≠ "") :
    validateToken env store now s₁ = validateToken env store now s₂ := by
  simp only [validateToken, if_neg h₁, if_neg h₂, hp]

/-- The instrumented rule loop computes the same result as the plain one. -/
theorem runRulesTrace_fst {ρ α : Type} (apply : ρ → α → Bool) (rules : List ρ) (u : α) :
    (runRulesTrace apply rules u).1 = runRules apply rules u := by
  induction rules with
  | nil => rfl
  | cons r rest ih =>
    simp only [runRulesTrace, runRules]
    by_cases h : apply r u = false <;> simp [h, ih]

/-- The instrumented user validator computes the same result as the
plain one. -/
theorem validateUserTrace_fst {σ τ α : Type} (applyS : σ → α → Bool)
    (applyA : τ → α → Bool) (u : α) (rules : Ruleset σ τ) :
    (validateUserTrace applyS applyA u rules).1 = validateUser applyS applyA u rules := by
  unfold validateUserTrace validateUser
  by_cases h : rules.evaluateSync applyS u = false
  · simp [h]
  · simp only [Bool.not_eq_false] at h
    simp [h, runRulesTrace_fst, Ruleset.evaluateAsync]

/-- A rule loop over rules that all pass returns true. -/
theorem runRules_of_all_true {ρ α : Type} (apply : ρ → α → Bool) {rules : List ρ}
    {u : α} (h : ∀ r ∈ rules, apply r u = true) : runRules apply rules u = true := by
  induction rules with
  | nil => rfl
  | cons r rest ih =>
    have hr := h r (List.mem_cons_self r rest)
    have ih2 := ih fun q hq => h q (List.mem_cons_of_mem _ hq)
    simp [runRules, hr, ih2]

/-- A rule loop stops at the first failing rule: the result is false and
exactly the passing prefix plus the failing rule were invoked. -/
theorem runRules_shortcircuit {ρ α : Type} (apply : ρ → α → Bool) {pre : List ρ}
    (r : ρ) (post : List ρ) {u : α}
    (hpre : ∀ x ∈ pre, apply x u = true) (hr : apply r u = false) :
    runRules apply (pre ++ r :: post) u = false ∧
    runRulesTrace apply (pre ++ r :: post) u = (false, pre ++ [r]) := by
  induction pre with
  | nil => simp [runRules, runRulesTrace, hr]
  | cons x xs ih =>
    have hx := hpre x (List.mem_cons_self x xs)
    have ih2 := ih fun q hq => hpre q (List.mem_cons_of_mem _ hq)
    simp [runRules, runRulesTrace, hx, ih2.1, ih2.2]

/-- Adding to a duplicate-free set model keeps it duplicate-free. -/
theorem setAdd_nodup {σ : Type} [DecidableEq σ] {l : List σ} (h : l.Nodup) (x : σ) :
    (setAdd l x).Nodup := by
  by_cases hx : x ∈ l
  · simpa [setAdd, hx] using h
  · have hdj : l.Disjoint [x] := by
      intro a ha hax
      rw [List.mem_singleton] at hax
      exact hx (hax ▸ ha)
    simpa [setAdd, hx] using h.append (List.nodup_singleton x) hdj

/-- Pouring a list into the set model yields a duplicate-free list. -/
theorem setFromList_nodup {σ : Type} [DecidableEq σ] (l : List σ) :
    (setFromList l).Nodup := by
  have haux : ∀ acc : List σ, acc.Nodup → (l.foldl setAdd acc).Nodup := by
    induction l with
    | nil => intro acc h; exact h
    | cons x xs ih => intro acc h; exact ih _ (setAdd_nodup h x)
  exact haux [] List.nodup_nil

/-- Concrete sample token used by the witness checks. -/
def sampleToken : Token :=
  { sessionId := "sid", userId := UserId.num 1, expirationTime := 5 }

/-- Concrete sample collaborator environment used by the witness checks:
every token serializes to the payload string PAY, whose only valid
signature is SIG, and PAY decodes back to `sampleToken`. -/
def sampleEnv : CryptoEnv :=
  { sign := fun _ => "SIG"
  , verify := fun p s => decide (p = "PAY") && decide (s = "SIG")
  , b64encode := fun _ => "PAY"
  , b64decode := fun s => s
  , jsonStringify := fun _ => "J"
  , jsonParse := fun s =>
      if s = "PAY" then Except.ok sampleToken else Except.error JsError.syntaxError
  , randomUUID := "sid" }

/-- Concrete sample token store used by the witness checks: every
insertion succeeds and nothing is on the deny list. -/
def sampleStore : TokenStore :=
  { addToDenyList := fun _ _ => true, isOnDenyList := fun _ => false }

/-- Token record that `createToken` builds for a given userId and
expiration instant: fresh random sessionId, caller userId, expiration in
epoch milliseconds. -/
def issuedToken (env : CryptoEnv) (userId : UserId) (expirationTime : Int) : Token :=
  { sessionId := env.randomUUID, userId := userId, expirationTime := expirationTime }

/-- C1: for every non-empty input whose signature part verifies against
the payload part (and whose payload decodes to a token), validateToken
returns true exactly when the expirationTime of the decoded token is not
less than the current time and the deny-list query for its sessionId
returns false; the result is that very conjunction. -/
theorem validateToken_after_verification
    (env : CryptoEnv) (store : TokenStore) (now : Int) (s : String)
    (sig : String) (t : Token)
    (hsig : (parseToken s).signature = some sig)
    (hver : env.verify (parseToken s).token sig = true)
    (hdec : decodeToken env (parseToken s).token = Except.ok t) :
    validateToken env store now s =
      Except.ok (!decide (t.expirationTime < now) && !store.isOnDenyList t.sessionId) ∧
    (validateToken env store now s = Except.ok true ↔
      (¬ t.expirationTime < now ∧ store.isOnDenyList t.sessionId = false)) := by
  have hne : s ≠ "" := by
    intro h
    rw [h, parseToken_empty] at hsig
    exact Option.noConfusion hsig
  have hval : validateToken env store now s =
      if t.expirationTime < now then Except.ok false
      else Except.ok (!store.isOnDenyList t.sessionId) := by
    simp only [validateToken, if_neg hne, hsig, verifyToken, hver, hdec]
    rfl
  constructor
  · rw [hval]
    by_cases he : t.expirationTime < now <;> simp [he]
  · rw [hval]
    by_cases he : t.expirationTime < now <;> simp [he]

/-- C1 witness: a concrete verified, unexpired, unrevoked token
validates to true. -/
theorem validateToken_after_verification_witness :
    validateToken sampleEnv sampleStore 0 "PAY.SIG" = Except.ok true := by
  have h := validateToken_after_verification sampleEnv sampleStore 0 "PAY.SIG"
    "SIG" sampleToken rfl rfl rfl
  rw [h.1]
  rfl

/-- C2 (code bug in the source): validateToken does return false on the
empty string, but on a non-empty input with no separator, such as
not-a-real-token, the split leaves the signature undefined and the Node
verify call throws a TypeError instead of returning false, for every
environment, store and time. -/
theorem validateToken_no_separator_throws (env : CryptoEnv) (store : TokenStore)
    (now : Int) :
    validateToken env store now "" = Except.ok false ∧
    validateToken env store now "not-a-real-token" =
      Except.error JsError.invalidArgType := by
  constructor
  · rfl
  · have hp : parseToken "not-a-real-token" =
        { token := "not-a-real-token", signature := none } := rfl
    simp only [validateToken, hp, verifyToken]
    rfl

/-- C4: whenever signature verification returns false, validateToken
returns false for every store, every clock value and every decoder, and
the instrumented pipeline records the verification step as the only
stage executed: the payload is never decoded, expiration is never
checked and the store is never queried. -/
theorem validateToken_failfast
    (env : CryptoEnv) (store : TokenStore) (now : Int) (s : String) (sig : String)
    (hsig : (parseToken s).signature = some sig)
    (hver : env.verify (parseToken s).token sig = false) :
    validateToken env store now s = Except.ok false ∧
    validateTokenTrace env store now s = (Except.ok false, [VEvent.verifySig]) := by
  have hne : s ≠ "" := by
    intro h
    rw [h, parseToken_empty] at hsig
    exact Option.noConfusion hsig
  constructor
  · simp only [validateToken, if_neg hne, hsig, verifyToken, hver]
    rfl
  · simp only [validateTokenTrace, if_neg hne, hsig, verifyToken, hver]
    rfl

/-- C4 witness: a concrete token with a wrong signature is rejected with
only the verification stage executed. -/
theorem validateToken_failfast_witness :
    validateToken sampleEnv sampleStore 0 "PAY.BAD" = Except.ok false ∧
    validateTokenTrace sampleEnv sampleStore 0 "PAY.BAD" =
      (Except.ok false, [VEvent.verifySig]) :=
  validateToken_failfast sampleEnv sampleStore 0 "PAY.BAD" "BAD" rfl rfl

/-- C3: round-trip. For any userId and any expiration instant in the
future, a token minted by createToken validates to true, provided the
store reports its sessionId as not revoked. The hypotheses on the
collaborators state that verification accepts the signature produced by
signing, that the codec decodes its own encoding, and that the base64
payload and signature strings contain no separator character, exactly
the contracts of the external crypto and codec. -/
theorem validateToken_createToken_roundtrip
    (env : CryptoEnv) (store : TokenStore) (now : Int) (uid : UserId) (exp : Int)
    (hfuture : now < exp)
    (hsigver : env.verify (encodeToken env (issuedToken env uid exp))
      (signToken env (encodeToken env (issuedToken env uid exp))) = true)
    (hcodec : decodeToken env (encodeToken env (issuedToken env uid exp)) =
      Except.ok (issuedToken env uid exp))
    (hdot1 : '.' ∉ (encodeToken env (issuedToken env uid exp)).toList)
    (hdot2 : '.' ∉ (signToken env (encodeToken env (issuedToken env uid exp))).toList)
    (hdeny : store.isOnDenyList env.randomUUID = false) :
    validateToken env store now (createToken env uid exp) = Except.ok true := by
  have hcreate : createToken env uid exp =
      encodeToken env (issuedToken env uid exp) ++ "." ++
      signToken env (encodeToken env (issuedToken env uid exp)) := rfl
  have hne := append_sep_ne_empty (encodeToken env (issuedToken env uid exp))
    (signToken env (encodeToken env (issuedToken env uid exp)))
  have hparse := parseToken_wellformed hdot1 hdot2
  rw [hcreate]
  simp only [validateToken, if_neg hne, hparse, verifyToken, hsigver, hcodec]
  have hexp : ¬ (issuedToken env uid exp).expirationTime < now := by
    simp only [issuedToken]
    omega
  simp [hexp, issuedToken, hdeny]
  omega

/-- C3 witness: a concrete freshly minted future-dated token validates
to true against a store with an empty deny list. -/
theorem validateToken_createToken_roundtrip_witness :
    validateToken sampleEnv sampleStore 0 (createToken sampleEnv (UserId.num 1) 5) =
      Except.ok true :=
  validateToken_createToken_roundtrip sampleEnv sampleStore 0 (UserId.num 1) 5
    (by decide) rfl rfl (by decide) (by decide) rfl

/-- C5 counterexample: the claim says revokeToken returns the store
result verbatim on every input, but on the empty string the source
returns false without consulting a store whose addToDenyList returns
true on all inputs. -/
theorem revokeToken_not_verbatim_counterexample :
    revokeToken sampleEnv sampleStore 0 "" = Except.ok false ∧
    sampleStore.addToDenyList "" 0 = true :=
  ⟨rfl, rfl⟩

/-- C5 (amended): revokeToken takes the full unparsed token, not a bare
sessionId. For empty input it returns false without consulting the
store; for non-empty input whose payload part decodes to a token it
delegates to TokenStore.addToDenyList with the decoded sessionId and the
current time and returns the store boolean verbatim; when decoding
fails, the error propagates instead of a store call. -/
theorem revokeToken_behavior (env : CryptoEnv) (store : TokenStore) (now : Int) :
    revokeToken env store now "" = Except.ok false ∧
    (∀ s t, s ≠ "" → decodeToken env (parseToken s).token = Except.ok t →
      revokeToken env store now s = Except.ok (store.addToDenyList t.sessionId now)) ∧
    (∀ s e, s ≠ "" → decodeToken env (parseToken s).token = Except.error e →
      revokeToken env store now s = Except.error e) := by
  refine ⟨rfl, ?_, ?_⟩
  · intro s t hne hdec
    simp only [revokeToken, if_neg hne, hdec]
  · intro s e hne hdec
    simp only [revokeToken, if_neg hne, hdec]

/-- C5 witness: revoking a concrete decodable token returns the store
result for the decoded sessionId. -/
theorem revokeToken_behavior_witness :
    revokeToken sampleEnv sampleStore 0 "PAY.SIG" = Except.ok true :=
  (revokeToken_behavior sampleEnv sampleStore 0).2.1 "PAY.SIG" sampleToken
    (by decide) rfl

/-- C6: createToken succeeds on every (userId, expiration) pair and
returns base64(JSON(Token)) concatenated by the separator with the
base64 signature computed over that payload, where the Token holds the
freshly generated random sessionId, the given userId, and the given
expiration instant in epoch milliseconds; its output is a pure function
of the collaborator environment and the arguments, with no token store
involved. -/
theorem createToken_wire_format (env : CryptoEnv) (uid : UserId) (exp : Int) :
    createToken env uid exp =
      env.b64encode (env.jsonStringify (issuedToken env uid exp)) ++ "." ++
      env.sign (env.b64encode (env.jsonStringify (issuedToken env uid exp))) ∧
    issuedToken env uid exp =
      { sessionId := env.randomUUID, userId := uid, expirationTime := exp } :=
  ⟨rfl, rfl⟩

/-- C7: evaluateSync walks the sync rules in insertion order and returns
false at the first failing rule, never invoking the later ones (the
instrumented loop records exactly the passing prefix and the failing
rule); it returns true on an empty collection and when every rule
passes. evaluateAsync behaves the same way over the async rules, each
awaited result being the boolean its promise resolves to. -/
theorem ruleset_evaluation_shortcircuit {σ τ α : Type}
    (applyS : σ → α → Bool) (applyA : τ → α → Bool) (u : α) (rs : Ruleset σ τ) :
    (rs.syncRules = [] → rs.evaluateSync applyS u = true) ∧
    ((∀ r ∈ rs.syncRules, applyS r u = true) → rs.evaluateSync applyS u = true) ∧
    (∀ pre r post, rs.syncRules = pre ++ r :: post →
      (∀ x ∈ pre, applyS x u = true) → applyS r u = false →
      rs.evaluateSync applyS u = false ∧
      runRulesTrace applyS rs.syncRules u = (false, pre ++ [r])) ∧
    (rs.asyncRules = [] → rs.evaluateAsync applyA u = true) ∧
    ((∀ r ∈ rs.asyncRules, applyA r u = true) → rs.evaluateAsync applyA u = true) ∧
    (∀ pre r post, rs.asyncRules = pre ++ r :: post →
      (∀ x ∈ pre, applyA x u = true) → applyA r u = false →
      rs.evaluateAsync applyA u = false ∧
      runRulesTrace applyA rs.asyncRules u = (false, pre ++ [r])) := by
  refine ⟨?_, ?_, ?_, ?_, ?_, ?_⟩
  · intro h
    simp [Ruleset.evaluateSync, h, runRules]
  · intro h
    exact runRules_of_all_true applyS h
  · intro pre r post h hpre hr
    have hs := runRules_shortcircuit applyS r post hpre hr
    rw [Ruleset.evaluateSync, h]
    exact ⟨hs.1, h ▸ hs.2⟩
  · intro h
    simp [Ruleset.evaluateAsync, h, runRules]
  · intro h
    exact runRules_of_all_true applyA h
  · intro pre r post h hpre hr
    have hs := runRules_shortcircuit applyA r post hpre hr
    rw [Ruleset.evaluateAsync, h]
    exact ⟨hs.1, h ▸ hs.2⟩

/-- C7 witness: over the concrete sync rules 1, 0, 5 with the predicate
that a rule passes when nonzero, evaluation returns false and invokes
exactly rules 1 and 0; the concrete async rules 0, 2 stop at rule 0. -/
theorem ruleset_evaluation_shortcircuit_witness :
    (Ruleset.make ([1, 0, 5] : List Nat) ([0, 2] : List Nat)).evaluateSync
      (fun r (_ : Unit) => decide (r ≠ 0)) () = false ∧
    runRulesTrace (fun r (_ : Unit) => decide (r ≠ 0))
      (Ruleset.make ([1, 0, 5] : List Nat) ([0, 2] : List Nat)).syncRules () =
      (false, [1, 0]) ∧
    (Ruleset.make ([1, 0, 5] : List Nat) ([0, 2] : List Nat)).evaluateAsync
      (fun r (_ : Unit) => decide (r ≠ 0)) () = false ∧
    runRulesTrace (fun r (_ : Unit) => decide (r ≠ 0))
      (Ruleset.make ([1, 0, 5] : List Nat) ([0, 2] : List Nat)).asyncRules () =
      (false, [0]) := by
  have h := ruleset_evaluation_shortcircuit (fun r (_ : Unit) => decide (r ≠ 0))
    (fun r (_ : Unit) => decide (r ≠ 0)) ()
    (Ruleset.make ([1, 0, 5] : List Nat) ([0, 2] : List Nat))
  have hsync := h.2.2.1 [1] 0 [5] (by decide) (by decide) (by decide)
  have hasync := h.2.2.2.2.2 [] 0 [2] (by decide) (by decide) (by decide)
  exact ⟨hsync.1, hsync.2, hasync.1, hasync.2⟩

/-- C8: validateUser returns the conjunction of evaluateSync and
evaluateAsync, and when evaluateSync returns false the result is false
with no async rule invoked at all (the instrumented version records an
empty async invocation list). -/
theorem validateUser_sync_gates_async {σ τ α : Type}
    (applyS : σ → α → Bool) (applyA : τ → α → Bool) (u : α) (rs : Ruleset σ τ) :
    validateUser applyS applyA u rs =
      (rs.evaluateSync applyS u && rs.evaluateAsync applyA u) ∧
    (rs.evaluateSync applyS u = false →
      validateUser applyS applyA u rs = false ∧
      validateUserTrace applyS applyA u rs = (false, [])) := by
  refine ⟨rfl, fun h => ⟨?_, ?_⟩⟩
  · simp [validateUser, h]
  · simp [validateUserTrace, h]

/-- C8 witness: with a failing concrete sync rule, validateUser is false
and the async invocation list is empty. -/
theorem validateUser_sync_gates_async_witness :
    validateUser (fun r (_ : Unit) => decide (r ≠ 0)) (fun r (_ : Unit) => decide (r ≠ 0))
      () (Ruleset.make ([0] : List Nat) ([2] : List Nat)) = false ∧
    validateUserTrace (fun r (_ : Unit) => decide (r ≠ 0)) (fun r (_ : Unit) => decide (r ≠ 0))
      () (Ruleset.make ([0] : List Nat) ([2] : List Nat)) = (false, []) :=
  (validateUser_sync_gates_async (fun r (_ : Unit) => decide (r ≠ 0))
    (fun r (_ : Unit) => decide (r ≠ 0)) ()
    (Ruleset.make ([0] : List Nat) ([2] : List Nat))).2 (by decide)

/-- C9: each rule collection holds a given reference at most once: the
constructor deduplicates its seed arrays, adding an already present
reference is a no-op returning an unchanged ruleset, and every mutating
operation preserves freedom from duplicates in both collections. -/
theorem ruleset_rules_unique {σ τ : Type} [DecidableEq σ] [DecidableEq τ] :
    (∀ (sync : List σ) (async : List τ),
      (Ruleset.make sync async).syncRules.Nodup ∧
      (Ruleset.make sync async).asyncRules.Nodup) ∧
    (∀ (rs : Ruleset σ τ) (r : σ), r ∈ rs.syncRules → rs.addSyncRule r = rs) ∧
    (∀ (rs : Ruleset σ τ) (q : τ), q ∈ rs.asyncRules → rs.addAsyncRule q = rs) ∧
    (∀ (rs : Ruleset σ τ), rs.syncRules.Nodup → rs.asyncRules.Nodup →
      ∀ (r : σ) (q : τ),
      ((rs.addSyncRule r).syncRules.Nodup ∧ (rs.addSyncRule r).asyncRules.Nodup) ∧
      ((rs.addAsyncRule q).syncRules.Nodup ∧ (rs.addAsyncRule q).asyncRules.Nodup) ∧
      ((rs.deleteSyncRule r).2.syncRules.Nodup ∧ (rs.deleteSyncRule r).2.asyncRules.Nodup) ∧
      ((rs.deleteAsyncRule q).2.syncRules.Nodup ∧ (rs.deleteAsyncRule q).2.asyncRules.Nodup) ∧
      (rs.clearSyncRules.syncRules.Nodup ∧ rs.clearSyncRules.asyncRules.Nodup) ∧
      (rs.clearAsyncRules.syncRules.Nodup ∧ rs.clearAsyncRules.asyncRules.Nodup)) := by
  refine ⟨?_, ?_, ?_, ?_⟩
  · intro sync async
    exact ⟨setFromList_nodup sync, setFromList_nodup async⟩
  · intro rs r h
    simp [Ruleset.addSyncRule, setAdd, h]
  · intro rs q h
    simp [Ruleset.addAsyncRule, setAdd, h]
  · intro rs hs ha r q
    refine ⟨⟨setAdd_nodup hs r, ha⟩, ⟨hs, setAdd_nodup ha q⟩,
      ⟨hs.erase r, ha⟩, ⟨hs, ha.erase q⟩, ⟨List.nodup_nil, ha⟩, ⟨hs, List.nodup_nil⟩⟩

/-- C9 witness: a constructor seed with a repeated reference yields a
duplicate-free collection, and re-adding a present reference leaves a
concrete ruleset unchanged. -/
theorem ruleset_rules_unique_witness :
    (Ruleset.make ([1, 2, 1] : List Nat) ([3] : List Nat)).syncRules.Nodup ∧
    (Ruleset.make ([1, 2] : List Nat) ([3] : List Nat)).addSyncRule 1 =
      Ruleset.make ([1, 2] : List Nat) ([3] : List Nat) :=
  ⟨((@ruleset_rules_unique Nat Nat _ _).1 [1, 2, 1] [3]).1,
   (@ruleset_rules_unique Nat Nat _ _).2.1 (Ruleset.make [1, 2] [3]) 1 (by decide)⟩

/-- C10: validateToken reads only the first two dot-separated segments:
appending a separator and any suffix to a well-formed two-part token
leaves the verdict unchanged, even though the longer string violates
the wire-format invariant of exactly one separator. -/
theorem validateToken_ignores_extra_segments
    (env : CryptoEnv) (store : TokenStore) (now : Int) (a b s : String)
    (ha : '.' ∉ a.toList) (hb : '.' ∉ b.toList) :
    validateToken env store now (a ++ "." ++ b ++ "." ++ s) =
      validateToken env store now (a ++ "." ++ b) := by
  have h1 : parseToken (a ++ "." ++ b) = { token := a, signature := some b } :=
    parseToken_wellformed ha hb
  have hdata : (a ++ "." ++ b ++ "." ++ s).toList =
      a.toList ++ '.' :: (b.toList ++ '.' :: s.toList) := by
    have hdot : ("." : String).data = ['.'] := rfl
    show (a ++ "." ++ b ++ "." ++ s).data =
      a.data ++ '.' :: (b.data ++ '.' :: s.data)
    simp [String.data_append, hdot]
  have h2 : parseToken (a ++ "." ++ b ++ "." ++ s) =
      { token := a, signature := some b } := by
    unfold parseToken jsSplit
    rw [hdata, splitChar_append _ ha, splitChar_append _ hb]
    simp only [List.map_cons, List.head?]
    exact congrArg₂ ParsedToken.mk rfl rfl
  exact validateToken_congr env store now (h2.trans h1.symm)
    (append_sep_ne_empty (a ++ "." ++ b) s) (append_sep_ne_empty a b)

/-- C10 witness: a concrete valid token keeps its verdict when an extra
dot-separated segment is appended. -/
theorem validateToken_ignores_extra_segments_witness :
    validateToken sampleEnv sampleStore 0 ("PAY" ++ "." ++ "SIG" ++ "." ++ "x") =
      validateToken sampleEnv sampleStore 0 ("PAY" ++ "." ++ "SIG") :=
  validateToken_ignores_extra_segments sampleEnv sampleStore 0 "PAY" "SIG" "x"
    (by decide) (by decide)
